import Mathlib

/-!
# Verification of the Nellie manual-annotation dynamics pipeline

Shallow embedding of the dynamics core of the repository:

* `src/dynamics/topology_driven_inference.py` — topology-driven event
  inference (`infer_events_from_topology_change` and its effect matrix),
* `src/dynamics/topology_reconciliation.py` — expected topology changes
  from detected events and the degree calculation,
* `src/dynamics/event_detector.py` — adjacency parsing, spatial node
  matching and the six-category event classifier.

Conventions of the embedding:

* floats become `ℚ` (the numerical data of the pipeline is finite decimal
  data; no rounding effects are claimed),
* `scipy.optimize.linprog` is external to the repository: it is modelled by
  its contract — on a feasible problem it returns an optimal solution of
  the stated linear program.  The optimum of this particular LP is unique
  (proved below as `minimize_total_unique`), so the contract determines the
  value returned to the surrounding repository code,
* `scipy.optimize.minimize` (SLSQP) is likewise modelled by its outcome:
  `some x` when it reports success with final iterate `x`, `none` on
  failure — the surrounding code (which is what is verified) branches on
  exactly that outcome,
* `numpy.round` (round half to even) is embedded as `npRound`.
-/

/-- A 6-vector given by its entries (used for the event-count vectors;
columns: tip_edge_fusion, junction_breakage, tip_tip_fusion,
tip_tip_fission, extrusion, retraction). -/
def vec6 {α : Type} (a b c d e f : α) : Fin 6 → α
  | 0 => a
  | 1 => b
  | 2 => c
  | 3 => d
  | 4 => e
  | 5 => f

@[simp] theorem vec6_zero {α : Type} (a b c d e f : α) : vec6 a b c d e f 0 = a := rfl

@[simp] theorem vec6_one {α : Type} (a b c d e f : α) : vec6 a b c d e f 1 = b := rfl

@[simp] theorem vec6_two {α : Type} (a b c d e f : α) : vec6 a b c d e f 2 = c := rfl

@[simp] theorem vec6_three {α : Type} (a b c d e f : α) : vec6 a b c d e f 3 = d := rfl

@[simp] theorem vec6_four {α : Type} (a b c d e f : α) : vec6 a b c d e f 4 = e := rfl

@[simp] theorem vec6_five {α : Type} (a b c d e f : α) : vec6 a b c d e f 5 = f := rfl

theorem vec6_nonneg {a b c d e f : ℚ} (ha : 0 ≤ a) (hb : 0 ≤ b) (hc : 0 ≤ c)
    (hd : 0 ≤ d) (he : 0 ≤ e) (hf : 0 ≤ f) : ∀ i, 0 ≤ vec6 a b c d e f i := by
  intro i
  match i with
  | 0 => exact ha
  | 1 => exact hb
  | 2 => exact hc
  | 3 => exact hd
  | 4 => exact he
  | 5 => exact hf

theorem vec6_ext {α : Type} {v : Fin 6 → α} {a b c d e f : α}
    (h0 : v 0 = a) (h1 : v 1 = b) (h2 : v 2 = c) (h3 : v 3 = d)
    (h4 : v 4 = e) (h5 : v 5 = f) : v = vec6 a b c d e f := by
  funext i
  match i with
  | 0 => exact h0
  | 1 => exact h1
  | 2 => exact h2
  | 3 => exact h3
  | 4 => exact h4
  | 5 => exact h5

/-! ## Effect matrix and inference result
    (`src/dynamics/topology_driven_inference.py`, lines 84-109 and 159-185) -/

/-- The topology effect matrix `A` of `infer_events_from_topology_change`
(rows: delta_tips, delta_junctions; columns: tip_edge_fusion,
junction_breakage, tip_tip_fusion, tip_tip_fission, extrusion, retraction). -/
def Amat : Fin 2 → Fin 6 → ℤ
  | 0 => vec6 (-1) 1 (-2) 2 1 (-1)
  | 1 => vec6 1 (-1) 0 0 1 (-1)

/-- `A · v` for a rational 6-vector of event counts. -/
def applyA (v : Fin 6 → ℚ) : ℚ × ℚ :=
  (∑ j, (Amat 0 j : ℚ) * v j, ∑ j, (Amat 1 j : ℚ) * v j)

/-- `A · v` for an integer 6-vector of event counts. -/
def applyAInt (v : Fin 6 → ℤ) : ℤ × ℤ :=
  (∑ j, Amat 0 j * v j, ∑ j, Amat 1 j * v j)

theorem applyA_eq (v : Fin 6 → ℚ) :
    applyA v = (-v 0 + v 1 - 2 * v 2 + 2 * v 3 + v 4 - v 5,
                v 0 - v 1 + v 4 - v 5) := by
  unfold applyA
  rw [Fin.sum_univ_six, Fin.sum_univ_six]
  simp [Amat]
  constructor <;> ring

theorem applyAInt_eq (v : Fin 6 → ℤ) :
    applyAInt v = (-v 0 + v 1 - 2 * v 2 + 2 * v 3 + v 4 - v 5,
                   v 0 - v 1 + v 4 - v 5) := by
  unfold applyAInt
  rw [Fin.sum_univ_six, Fin.sum_univ_six]
  simp [Amat]
  constructor <;> ring

/-- Feasibility of the linear program solved by the `minimize_total` branch:
`A v = b` with `v ≥ 0` (bounds `[(0, None)] * 6`). -/
def LPFeasible (b : ℤ × ℤ) (v : Fin 6 → ℚ) : Prop :=
  (∀ i, 0 ≤ v i) ∧ applyA v = ((b.1 : ℚ), (b.2 : ℚ))

/-- The objective of the `minimize_total` branch: `c = np.ones(6)`,
i.e. the total number of inferred events. -/
def totalEvents (v : Fin 6 → ℚ) : ℚ := ∑ j, v j

/-- An optimal solution of the `minimize_total` linear program. -/
def IsOptimalMinTotal (b : ℤ × ℤ) (v : Fin 6 → ℚ) : Prop :=
  LPFeasible b v ∧ ∀ w, LPFeasible b w → totalEvents v ≤ totalEvents w

theorem LPFeasible_iff (b : ℤ × ℤ) (v : Fin 6 → ℚ) :
    LPFeasible b v ↔ (∀ i, 0 ≤ v i) ∧
      -v 0 + v 1 - 2 * v 2 + 2 * v 3 + v 4 - v 5 = (b.1 : ℚ) ∧
      v 0 - v 1 + v 4 - v 5 = (b.2 : ℚ) := by
  unfold LPFeasible
  rw [applyA_eq, Prod.ext_iff]

theorem totalEvents_eq (v : Fin 6 → ℚ) :
    totalEvents v = v 0 + v 1 + v 2 + v 3 + v 4 + v 5 := by
  unfold totalEvents
  rw [Fin.sum_univ_six]

/-- `numpy.round`: round to nearest, ties to even. -/
def npRound (q : ℚ) : ℤ :=
  if q + 1/2 = (⌊q + 1/2⌋ : ℚ) ∧ ⌊q + 1/2⌋ % 2 = 1 then ⌊q + 1/2⌋ - 1
  else ⌊q + 1/2⌋

/-- The closed form of the unique optimal solution of the `minimize_total`
linear program (models the value `result.x` returned by
`scipy.optimize.linprog(c=np.ones(6), A_eq=A, b_eq=b, bounds=[(0,None)]*6)`;
`linprogMinTotal_feasible`, `linprogMinTotal_optimal` and
`minimize_total_unique` below prove that this is the optimum and that the
optimum is unique, so any correct LP solver returns it.  The LP is feasible
for every `b`, matching `result.success`). -/
def linprogMinTotal (b : ℤ × ℤ) : Fin 6 → ℚ :=
  let p : ℚ := b.1
  let q : ℚ := b.2
  if |p| ≤ q then vec6 ((q - p)/2) 0 0 0 ((p + q)/2) 0
  else if |p| ≤ -q then vec6 0 ((p - q)/2) 0 0 0 ((-(p + q))/2)
  else if 0 ≤ q then
    (if 0 ≤ p then vec6 0 0 0 ((p - q)/2) q 0
     else vec6 q 0 ((-(p + q))/2) 0 0 0)
  else
    (if 0 ≤ p then vec6 0 (-q) 0 ((p + q)/2) 0 0
     else vec6 0 0 ((q - p)/2) 0 0 (-q))

/-- The quality metrics computed at lines 159-185 of
`topology_driven_inference.py`: predicted deltas `A·v`, absolute residuals
and the `perfect_match` flag. -/
structure TopologyMatch where
  actual_delta_tips : ℤ
  actual_delta_junctions : ℤ
  predicted_delta_tips : ℤ
  predicted_delta_junctions : ℤ
  residual_tips : ℤ
  residual_junctions : ℤ
  perfect_match : Bool
deriving DecidableEq, Repr

/-- The "Verify the solution" block (lines 159-185): recompute `A·v`,
report `residual = |A v − b|` per row and
`perfect_match = (residual_tips == 0 and residual_junctions == 0)`. -/
def verify_solution (b : ℤ × ℤ) (counts : Fin 6 → ℤ) : TopologyMatch :=
  let predicted := applyAInt counts
  { actual_delta_tips := b.1
    actual_delta_junctions := b.2
    predicted_delta_tips := predicted.1
    predicted_delta_junctions := predicted.2
    residual_tips := |predicted.1 - b.1|
    residual_junctions := |predicted.2 - b.2|
    perfect_match := decide (|predicted.1 - b.1| = 0 ∧ |predicted.2 - b.2| = 0) }

/-- Return value of `infer_events_from_topology_change`: the (rounded,
integer) inferred event counts and the topology-match metrics. -/
structure InferenceResult where
  inferred_event_counts : Fin 6 → ℤ
  topology_match : TopologyMatch
deriving DecidableEq

/-- `infer_events_from_topology_change(delta_tips, delta_junctions,
method='minimize_total')`: round the LP solution to integers
(`np.round(result.x).astype(int)`) and verify it. -/
def infer_events_minimize_total (b : ℤ × ℤ) : InferenceResult :=
  let counts : Fin 6 → ℤ := fun i => npRound (linprogMinTotal b i)
  { inferred_event_counts := counts
    topology_match := verify_solution b counts }

/-- `infer_events_from_topology_change(..., method='minimize_discrepancy')`
with a prior `detected_events` vector.  The SLSQP call is external and is
modelled by its outcome `solver`: on success the final iterate is rounded
(`np.round(result.x).astype(int)`), on failure the code falls back to the
prior unmodified (`inferred_counts = detected_vector`, lines 149-153). -/
def infer_events_minimize_discrepancy (b : ℤ × ℤ) (detected_vector : Fin 6 → ℤ)
    (solver : Option (Fin 6 → ℚ)) : InferenceResult :=
  let counts : Fin 6 → ℤ :=
    match solver with
    | some x => fun i => npRound (x i)
    | none => detected_vector
  { inferred_event_counts := counts
    topology_match := verify_solution b counts }

/-! ## Expected topology changes
    (`src/dynamics/topology_reconciliation.py`, lines 99-157) -/

/-- `calculate_expected_topology_changes` of `topology_reconciliation.py`
(lines 127-144), as a function of the six event counts
(tip_edge_fusion, junction_breakage, tip_tip_fusion, tip_tip_fission,
extrusion, retraction): the pair
(expected_delta_tips, expected_delta_junctions). -/
def calculate_expected_topology_changes (n : Fin 6 → ℤ) : ℤ × ℤ :=
  ( -1 * n 0 + 1 * n 1 + -2 * n 2 + 2 * n 3 + 1 * n 4 + -1 * n 5,
    1 * n 0 + -1 * n 1 + 0 * n 2 + 0 * n 3 + 1 * n 4 + -1 * n 5 )

/-! ## Basic facts about the LP model -/

theorem npRound_intCast (k : ℤ) : npRound (k : ℚ) = k := by
  unfold npRound
  have hfl : ⌊(k : ℚ) + 1/2⌋ = k := by
    rw [Int.floor_eq_iff]
    constructor
    · linarith
    · linarith
  rw [hfl]
  have hne : ¬ ((k : ℚ) + 1/2 = (k : ℚ)) := by
    intro h
    linarith
  simp [hne]

theorem npRound_nonneg {q : ℚ} (hq : 0 ≤ q) : 0 ≤ npRound q := by
  unfold npRound
  have h0 : (0 : ℤ) ≤ ⌊q + 1/2⌋ := by
    apply Int.le_floor.2
    push_cast
    linarith
  by_cases h : q + 1/2 = (⌊q + 1/2⌋ : ℚ) ∧ ⌊q + 1/2⌋ % 2 = 1
  · rw [if_pos h]
    rcases h with ⟨_, hodd⟩
    omega
  · rw [if_neg h]
    exact h0

theorem linprogMinTotal_feasible (b : ℤ × ℤ) : LPFeasible b (linprogMinTotal b) := by
  obtain ⟨p, q⟩ := b
  rw [LPFeasible_iff]
  unfold linprogMinTotal
  simp only []
  have habs1 : (p : ℚ) ≤ |(p : ℚ)| := le_abs_self _
  have habs2 : -|(p : ℚ)| ≤ (p : ℚ) := neg_abs_le _
  split_ifs with h1 h2 h3 h4 h4'
  · exact ⟨vec6_nonneg (by linarith) le_rfl le_rfl le_rfl (by linarith) le_rfl,
      by simp only [vec6_zero, vec6_one, vec6_two, vec6_three, vec6_four, vec6_five]; ring,
      by simp only [vec6_zero, vec6_one, vec6_two, vec6_three, vec6_four, vec6_five]; ring⟩
  · exact ⟨vec6_nonneg le_rfl (by linarith) le_rfl le_rfl le_rfl (by linarith),
      by simp only [vec6_zero, vec6_one, vec6_two, vec6_three, vec6_four, vec6_five]; ring,
      by simp only [vec6_zero, vec6_one, vec6_two, vec6_three, vec6_four, vec6_five]; ring⟩
  · rw [abs_of_nonneg h4] at h1 h2
    exact ⟨vec6_nonneg le_rfl le_rfl le_rfl (by linarith) (by linarith) le_rfl,
      by simp only [vec6_zero, vec6_one, vec6_two, vec6_three, vec6_four, vec6_five]; ring,
      by simp only [vec6_zero, vec6_one, vec6_two, vec6_three, vec6_four, vec6_five]; ring⟩
  · rw [abs_of_neg (lt_of_not_le h4)] at h1 h2
    exact ⟨vec6_nonneg (by linarith) le_rfl (by linarith) le_rfl le_rfl le_rfl,
      by simp only [vec6_zero, vec6_one, vec6_two, vec6_three, vec6_four, vec6_five]; ring,
      by simp only [vec6_zero, vec6_one, vec6_two, vec6_three, vec6_four, vec6_five]; ring⟩
  · rw [abs_of_nonneg h4'] at h1 h2
    exact ⟨vec6_nonneg le_rfl (by linarith) le_rfl (by linarith) le_rfl le_rfl,
      by simp only [vec6_zero, vec6_one, vec6_two, vec6_three, vec6_four, vec6_five]; ring,
      by simp only [vec6_zero, vec6_one, vec6_two, vec6_three, vec6_four, vec6_five]; ring⟩
  · rw [abs_of_neg (lt_of_not_le h4')] at h1 h2
    exact ⟨vec6_nonneg le_rfl le_rfl (by linarith) le_rfl le_rfl (by linarith),
      by simp only [vec6_zero, vec6_one, vec6_two, vec6_three, vec6_four, vec6_five]; ring,
      by simp only [vec6_zero, vec6_one, vec6_two, vec6_three, vec6_four, vec6_five]; ring⟩

theorem linprogMinTotal_optimal (b : ℤ × ℤ) (w : Fin 6 → ℚ)
    (hw : LPFeasible b w) : totalEvents (linprogMinTotal b) ≤ totalEvents w := by
  obtain ⟨p, q⟩ := b
  rw [LPFeasible_iff] at hw
  obtain ⟨hnn, htips, hjunc⟩ := hw
  have h0 := hnn 0
  have h1 := hnn 1
  have h2 := hnn 2
  have h3 := hnn 3
  have h4 := hnn 4
  have h5 := hnn 5
  rw [totalEvents_eq, totalEvents_eq]
  unfold linprogMinTotal
  simp only []
  split_ifs with hc1 hc2 hc3 hc4 hc4'
  · rcases abs_le.mp hc1 with ⟨ha, hb⟩
    simp only [vec6_zero, vec6_one, vec6_two, vec6_three, vec6_four, vec6_five]
    linarith
  · rcases abs_le.mp hc2 with ⟨ha, hb⟩
    simp only [vec6_zero, vec6_one, vec6_two, vec6_three, vec6_four, vec6_five]
    linarith
  · rw [abs_of_nonneg hc4] at hc1 hc2
    simp only [vec6_zero, vec6_one, vec6_two, vec6_three, vec6_four, vec6_five]
    linarith
  · rw [abs_of_neg (lt_of_not_le hc4)] at hc1 hc2
    simp only [vec6_zero, vec6_one, vec6_two, vec6_three, vec6_four, vec6_five]
    linarith
  · rw [abs_of_nonneg hc4'] at hc1 hc2
    simp only [vec6_zero, vec6_one, vec6_two, vec6_three, vec6_four, vec6_five]
    linarith
  · rw [abs_of_neg (lt_of_not_le hc4')] at hc1 hc2
    simp only [vec6_zero, vec6_one, vec6_two, vec6_three, vec6_four, vec6_five]
    linarith

theorem minimize_total_unique (b : ℤ × ℤ) (v : Fin 6 → ℚ)
    (hv : IsOptimalMinTotal b v) : v = linprogMinTotal b := by
  obtain ⟨p, q⟩ := b
  obtain ⟨hfeas, hopt⟩ := hv
  have heq : totalEvents v = totalEvents (linprogMinTotal (p, q)) :=
    le_antisymm (hopt _ (linprogMinTotal_feasible (p, q)))
      (linprogMinTotal_optimal (p, q) v hfeas)
  rw [LPFeasible_iff] at hfeas
  obtain ⟨hnn, htips, hjunc⟩ := hfeas
  have h0 := hnn 0
  have h1 := hnn 1
  have h2 := hnn 2
  have h3 := hnn 3
  have h4 := hnn 4
  have h5 := hnn 5
  rw [totalEvents_eq, totalEvents_eq] at heq
  unfold linprogMinTotal at heq ⊢
  simp only [] at heq ⊢
  split_ifs at heq ⊢ with hc1 hc2 hc3 hc4 hc4'
  · rcases abs_le.mp hc1 with ⟨ha, hb⟩
    simp only [vec6_zero, vec6_one, vec6_two, vec6_three, vec6_four, vec6_five] at heq
    exact vec6_ext (by linarith) (by linarith) (by linarith) (by linarith)
      (by linarith) (by linarith)
  · rcases abs_le.mp hc2 with ⟨ha, hb⟩
    simp only [vec6_zero, vec6_one, vec6_two, vec6_three, vec6_four, vec6_five] at heq
    exact vec6_ext (by linarith) (by linarith) (by linarith) (by linarith)
      (by linarith) (by linarith)
  · rw [abs_of_nonneg hc4] at hc1 hc2
    simp only [vec6_zero, vec6_one, vec6_two, vec6_three, vec6_four, vec6_five] at heq
    exact vec6_ext (by linarith) (by linarith) (by linarith) (by linarith)
      (by linarith) (by linarith)
  · rw [abs_of_neg (lt_of_not_le hc4)] at hc1 hc2
    simp only [vec6_zero, vec6_one, vec6_two, vec6_three, vec6_four, vec6_five] at heq
    exact vec6_ext (by linarith) (by linarith) (by linarith) (by linarith)
      (by linarith) (by linarith)
  · rw [abs_of_nonneg hc4'] at hc1 hc2
    simp only [vec6_zero, vec6_one, vec6_two, vec6_three, vec6_four, vec6_five] at heq
    exact vec6_ext (by linarith) (by linarith) (by linarith) (by linarith)
      (by linarith) (by linarith)
  · rw [abs_of_neg (lt_of_not_le hc4')] at hc1 hc2
    simp only [vec6_zero, vec6_one, vec6_two, vec6_three, vec6_four, vec6_five] at heq
    exact vec6_ext (by linarith) (by linarith) (by linarith) (by linarith)
      (by linarith) (by linarith)

theorem npRound_eq_intCast {x : ℚ} {k : ℤ} (h : x = (k : ℚ)) : npRound x = k := by
  rw [h]
  exact npRound_intCast k

theorem npRound_zero : npRound 0 = 0 := npRound_eq_intCast (by norm_num)

theorem npRound_one : npRound 1 = 1 := npRound_eq_intCast (by norm_num)

/-- If a nonnegative integer 6-vector solves `A w = b`, then
`delta_tips + delta_junctions` is even (every column of `A` has even
coordinate sum). -/
theorem exists_nat_solution_even (b : ℤ × ℤ) (w : Fin 6 → ℕ)
    (hw : applyAInt (fun i => (w i : ℤ)) = b) : Even (b.1 + b.2) := by
  rw [applyAInt_eq] at hw
  obtain ⟨p, q⟩ := b
  simp only [Prod.mk.injEq] at hw
  obtain ⟨h1, h2⟩ := hw
  exact ⟨(w 3 : ℤ) + (w 4 : ℤ) - (w 2 : ℤ) - (w 5 : ℤ), by omega⟩

/-- When `delta_tips + delta_junctions` is even, the unique LP optimum is
integral, so the rounded counts returned by the `minimize_total` branch
solve `A v = b` exactly. -/
theorem applyAInt_round_linprogMinTotal (b : ℤ × ℤ) (h : Even (b.1 + b.2)) :
    applyAInt (fun i => npRound (linprogMinTotal b i)) = b := by
  obtain ⟨p, q⟩ := b
  obtain ⟨m, hm⟩ := h
  simp only at hm
  have hmq : (p : ℚ) + (q : ℚ) = (m : ℚ) + (m : ℚ) := by exact_mod_cast hm
  rw [applyAInt_eq]
  unfold linprogMinTotal
  simp only []
  split_ifs with hc1 hc2 hc3 hc4 hc4'
  · simp only [vec6_zero, vec6_one, vec6_two, vec6_three, vec6_four, vec6_five]
    have r0 : npRound (((q : ℚ) - (p : ℚ)) / 2) = m - p :=
      npRound_eq_intCast (by push_cast; linarith)
    have r4 : npRound (((p : ℚ) + (q : ℚ)) / 2) = m :=
      npRound_eq_intCast (by linarith)
    rw [r0, r4, npRound_zero]
    simp only [Prod.mk.injEq]
    omega
  · simp only [vec6_zero, vec6_one, vec6_two, vec6_three, vec6_four, vec6_five]
    have r1 : npRound (((p : ℚ) - (q : ℚ)) / 2) = m - q :=
      npRound_eq_intCast (by push_cast; linarith)
    have r5 : npRound ((-((p : ℚ) + (q : ℚ))) / 2) = -m :=
      npRound_eq_intCast (by push_cast; linarith)
    rw [r1, r5, npRound_zero]
    simp only [Prod.mk.injEq]
    omega
  · simp only [vec6_zero, vec6_one, vec6_two, vec6_three, vec6_four, vec6_five]
    have r3 : npRound (((p : ℚ) - (q : ℚ)) / 2) = m - q :=
      npRound_eq_intCast (by push_cast; linarith)
    have r4 : npRound ((q : ℚ)) = q := npRound_intCast q
    rw [r3, r4, npRound_zero]
    simp only [Prod.mk.injEq]
    omega
  · simp only [vec6_zero, vec6_one, vec6_two, vec6_three, vec6_four, vec6_five]
    have r0 : npRound ((q : ℚ)) = q := npRound_intCast q
    have r2 : npRound ((-((p : ℚ) + (q : ℚ))) / 2) = -m :=
      npRound_eq_intCast (by push_cast; linarith)
    rw [r0, r2, npRound_zero]
    simp only [Prod.mk.injEq]
    omega
  · simp only [vec6_zero, vec6_one, vec6_two, vec6_three, vec6_four, vec6_five]
    have r1 : npRound (-(q : ℚ)) = -q := npRound_eq_intCast (by push_cast; ring)
    have r3 : npRound (((p : ℚ) + (q : ℚ)) / 2) = m :=
      npRound_eq_intCast (by linarith)
    rw [r1, r3, npRound_zero]
    simp only [Prod.mk.injEq]
    omega
  · simp only [vec6_zero, vec6_one, vec6_two, vec6_three, vec6_four, vec6_five]
    have r2 : npRound (((q : ℚ) - (p : ℚ)) / 2) = q - m :=
      npRound_eq_intCast (by push_cast; linarith)
    have r5 : npRound (-(q : ℚ)) = -q := npRound_eq_intCast (by push_cast; ring)
    rw [r2, r5, npRound_zero]
    simp only [Prod.mk.injEq]
    omega

theorem linprogMinTotal_neg2_0 : linprogMinTotal (-2, 0) = vec6 0 0 1 0 0 0 := by
  unfold linprogMinTotal
  norm_num

theorem verify_solution_neg2_0 : verify_solution (-2, 0) (vec6 0 0 1 0 0 0) =
    { actual_delta_tips := -2, actual_delta_junctions := 0,
      predicted_delta_tips := -2, predicted_delta_junctions := 0,
      residual_tips := 0, residual_junctions := 0, perfect_match := true } := by
  decide

theorem infer_events_minimize_total_neg2_0 :
    infer_events_minimize_total (-2, 0) =
      { inferred_event_counts := vec6 0 0 1 0 0 0
        topology_match :=
          { actual_delta_tips := -2, actual_delta_junctions := 0,
            predicted_delta_tips := -2, predicted_delta_junctions := 0,
            residual_tips := 0, residual_junctions := 0, perfect_match := true } } := by
  have hcounts : (fun i => npRound (linprogMinTotal (-2, 0) i)) = vec6 (0 : ℤ) 0 1 0 0 0 := by
    rw [linprogMinTotal_neg2_0]
    exact vec6_ext npRound_zero npRound_zero npRound_one npRound_zero npRound_zero npRound_zero
  simp only [infer_events_minimize_total]
  rw [hcounts, verify_solution_neg2_0]

/-- C1: the spec's Scenario C claims that for `delta_tips = -2`,
`delta_junctions = 0` the `minimize_total` inference returns
`tip_tip_fusion = 2` with all other categories 0 and `perfect_match = True`.
This is false on the code: the unique optimum of the LP at `(-2, 0)` is
`tip_tip_fusion = 1` (a single tip-tip fusion removes two tips), so the
returned vector has `tip_tip_fusion = 1`, and in particular the claimed
vector is not returned. -/
theorem claim_C1_counterexample :
    (infer_events_minimize_total (-2, 0)).inferred_event_counts 2 = 1 ∧
    ¬ ((infer_events_minimize_total (-2, 0)).inferred_event_counts 2 = 2 ∧
       (∀ i, i ≠ 2 → (infer_events_minimize_total (-2, 0)).inferred_event_counts i = 0) ∧
       (infer_events_minimize_total (-2, 0)).topology_match.perfect_match = true) := by
  rw [infer_events_minimize_total_neg2_0]
  refine ⟨rfl, ?_⟩
  rintro ⟨h2, _, _⟩
  exact absurd h2 (by decide)

/-- C1 (amended): for `delta_tips = -2`, `delta_junctions = 0`,
`minimize_total` infers `tip_tip_fusion = 1`, all other five categories 0,
and `perfect_match = True`: any optimal solution of the LP, rounded as the
code rounds it, yields exactly that event vector and a perfect match. -/
theorem claim_C1_scenario_C (v : Fin 6 → ℚ) (hv : IsOptimalMinTotal (-2, 0) v) :
    npRound (v 2) = 1 ∧ (∀ i, i ≠ 2 → npRound (v i) = 0) ∧
    (verify_solution (-2, 0) (fun i => npRound (v i))).perfect_match = true := by
  have hveq := minimize_total_unique (-2, 0) v hv
  subst hveq
  rw [linprogMinTotal_neg2_0]
  refine ⟨npRound_one, ?_, ?_⟩
  · intro i hi
    fin_cases i
    · exact npRound_zero
    · exact npRound_zero
    · exact absurd rfl hi
    · exact npRound_zero
    · exact npRound_zero
    · exact npRound_zero
  · have hcv : (fun i => npRound (vec6 (0 : ℚ) 0 1 0 0 0 i)) = vec6 (0 : ℤ) 0 1 0 0 0 :=
      vec6_ext npRound_zero npRound_zero npRound_one npRound_zero npRound_zero npRound_zero
    rw [hcv, verify_solution_neg2_0]

/-- Witness for C1 (amended): the closed-form LP optimum at `(-2, 0)` is an
optimal solution, and the theorem applied to it gives `tip_tip_fusion = 1`
and a perfect match. -/
theorem claim_C1_scenario_C_witness :
    IsOptimalMinTotal (-2, 0) (linprogMinTotal (-2, 0)) ∧
    npRound (linprogMinTotal (-2, 0) 2) = 1 ∧
    (verify_solution (-2, 0)
      (fun i => npRound (linprogMinTotal (-2, 0) i))).perfect_match = true := by
  have hopt : IsOptimalMinTotal (-2, 0) (linprogMinTotal (-2, 0)) :=
    ⟨linprogMinTotal_feasible (-2, 0), fun w hw => linprogMinTotal_optimal (-2, 0) w hw⟩
  obtain ⟨h1, _, h3⟩ := claim_C1_scenario_C (linprogMinTotal (-2, 0)) hopt
  exact ⟨hopt, h1, h3⟩

/-- C2: for every input `b = (delta_tips, delta_junctions)`, the rounded
vector returned by the `minimize_total` branch (the rounding of any optimal
LP solution) is componentwise nonnegative, and satisfies `A·v = b` exactly
whenever some nonnegative integer 6-vector `w` with `A·w = b` exists. -/
theorem claim_C2_minimize_total_feasibility (b : ℤ × ℤ) (v : Fin 6 → ℚ)
    (hv : IsOptimalMinTotal b v) :
    (∀ i, 0 ≤ npRound (v i)) ∧
    ((∃ w : Fin 6 → ℕ, applyAInt (fun i => (w i : ℤ)) = b) →
      applyAInt (fun i => npRound (v i)) = b) := by
  have hveq := minimize_total_unique b v hv
  subst hveq
  constructor
  · intro i
    exact npRound_nonneg ((linprogMinTotal_feasible b).1 i)
  · rintro ⟨w, hw⟩
    exact applyAInt_round_linprogMinTotal b (exists_nat_solution_even b w hw)

/-- Witness for C2 at `b = (-2, 0)`: the LP optimum there is optimal, the
exact integer solution `tip_tip_fusion = 1` exists, and the rounded result
is nonnegative and solves `A·v = b` exactly. -/
theorem claim_C2_minimize_total_feasibility_witness :
    IsOptimalMinTotal (-2, 0) (linprogMinTotal (-2, 0)) ∧
    (∀ i, 0 ≤ npRound (linprogMinTotal (-2, 0) i)) ∧
    applyAInt (fun i => npRound (linprogMinTotal (-2, 0) i)) = (-2, 0) := by
  have hopt : IsOptimalMinTotal (-2, 0) (linprogMinTotal (-2, 0)) :=
    ⟨linprogMinTotal_feasible (-2, 0), fun w hw => linprogMinTotal_optimal (-2, 0) w hw⟩
  have h := claim_C2_minimize_total_feasibility (-2, 0) (linprogMinTotal (-2, 0)) hopt
  exact ⟨hopt, h.1, h.2 ⟨vec6 0 0 1 0 0 0, by decide⟩⟩

/-- C3: the Reconciler's expected-change computation
(`calculate_expected_topology_changes`) and the Inferrer's constraint
matrix `A` implement the identical fixed per-category effect signatures:
for every 6-vector of category counts the Reconciler's
`(expected_delta_tips, expected_delta_junctions)` equals `A` applied to
that vector, and the per-category signatures of `A` are
tip_edge_fusion `(-1, +1)`, junction_breakage `(+1, -1)`,
tip_tip_fusion `(-2, 0)`, tip_tip_fission `(+2, 0)`, extrusion `(+1, +1)`,
retraction `(-1, -1)`. -/
theorem claim_C3_effect_matrix_consistency :
    (∀ n : Fin 6 → ℤ, calculate_expected_topology_changes n = applyAInt n) ∧
    applyAInt (vec6 1 0 0 0 0 0) = (-1, 1) ∧
    applyAInt (vec6 0 1 0 0 0 0) = (1, -1) ∧
    applyAInt (vec6 0 0 1 0 0 0) = (-2, 0) ∧
    applyAInt (vec6 0 0 0 1 0 0) = (2, 0) ∧
    applyAInt (vec6 0 0 0 0 1 0) = (1, 1) ∧
    applyAInt (vec6 0 0 0 0 0 1) = (-1, -1) := by
  refine ⟨?_, by decide, by decide, by decide, by decide, by decide, by decide⟩
  intro n
  rw [applyAInt_eq]
  unfold calculate_expected_topology_changes
  simp only [Prod.mk.injEq]
  constructor <;> ring

/-- C6: when the `minimize_discrepancy` solver fails, the returned event
vector is the prior unmodified; and in every mode the reported residuals
equal `|A·v − b|` per row with `perfect_match` true iff both residuals are
zero (both inference modes report through the same `verify_solution`
block). -/
theorem claim_C6_fallback_and_residual_reporting (b : ℤ × ℤ) (prior : Fin 6 → ℤ) :
    (infer_events_minimize_discrepancy b prior none).inferred_event_counts = prior ∧
    (∀ counts : Fin 6 → ℤ,
      (verify_solution b counts).residual_tips = |(applyAInt counts).1 - b.1| ∧
      (verify_solution b counts).residual_junctions = |(applyAInt counts).2 - b.2| ∧
      ((verify_solution b counts).perfect_match = true ↔
        (verify_solution b counts).residual_tips = 0 ∧
        (verify_solution b counts).residual_junctions = 0)) ∧
    (∀ solver, (infer_events_minimize_discrepancy b prior solver).topology_match =
      verify_solution b (infer_events_minimize_discrepancy b prior solver).inferred_event_counts) ∧
    (infer_events_minimize_total b).topology_match =
      verify_solution b (infer_events_minimize_total b).inferred_event_counts := by
  refine ⟨rfl, ?_, fun solver => rfl, rfl⟩
  intro counts
  refine ⟨rfl, rfl, ?_⟩
  simp [verify_solution]

/-! ## Adjacency parsing and degree computation
    (`src/dynamics/event_detector.py` lines 20-37,
     `src/dynamics/topology_reconciliation.py` lines 16-27)

`ast.literal_eval` is Python-standard-library code, external to the
repository; a string field is modelled by the outcome of parsing it. -/

namespace Adjacency

/-- A Python value produced by `ast.literal_eval`, classified by how `len()`
treats it. -/
inductive PyObj : Type
  | pylist (xs : List ℤ)
  | sized (n : ℕ)
  | unsized
deriving DecidableEq

/-- The value space of the `adjacencies` field of a node row: a string
together with the outcome of `ast.literal_eval` on it (`none` when parsing
raises), an actual Python list of neighbor ids, or any other non-string
non-list value (e.g. a float `NaN` from a missing CSV cell). -/
inductive AdjValue : Type
  | str (parsed : Option PyObj)
  | pylist (xs : List ℤ)
  | other
deriving DecidableEq

/-- Python `len`: the length of a sized value, `none` for the `TypeError`
raised on a value without a length (an int such as the result of parsing
the string `"5"`, a float, `None`, ...). -/
def pyLen : PyObj → Option ℕ
  | .pylist xs => some xs.length
  | .sized n => some n
  | .unsized => none

end Adjacency

namespace EventDetector

/-- `parse_adjacencies` of `event_detector.py` (lines 20-31): inside a
`try`, a string is passed to `ast.literal_eval` and the parsed value is
returned as-is (whatever it is); a list is returned unchanged; any other
value returns `[]`; a parse exception is caught and returns `[]`. -/
def parse_adjacencies : Adjacency.AdjValue → Adjacency.PyObj
  | .str (some o) => o
  | .str none => .pylist []
  | .pylist xs => .pylist xs
  | .other => .pylist []

/-- `calculate_degree_from_adjacencies` of `event_detector.py`
(lines 34-37): `len(parse_adjacencies(adj_str))`, where the `len` call sits
OUTSIDE the `try` of the parser — `none` models the uncaught `TypeError`
raised when the parsed value has no length. -/
def calculate_degree_from_adjacencies (a : Adjacency.AdjValue) : Option ℕ :=
  Adjacency.pyLen (parse_adjacencies a)

end EventDetector

namespace TopologyReconciliation

/-- `calculate_degree_from_adjacencies` of `topology_reconciliation.py`
(lines 16-27): here parsing AND the `len` call both sit inside one `try`
with a bare `except: return 0`, so every failure — including a `TypeError`
from `len` on a non-sized parsed value — degrades to degree 0. -/
def calculate_degree_from_adjacencies : Adjacency.AdjValue → ℕ
  | .str (some o) => (Adjacency.pyLen o).getD 0
  | .str none => 0
  | .pylist xs => xs.length
  | .other => 0

end TopologyReconciliation

/-- C8: the claim states that for every adjacency-field value — including
strings that fail to parse and strings that parse to a non-list literal
such as `"5"` — degree computation returns 0 and never raises, in both the
event detector and the topology reconciliation.  This is false for the
event detector: its `len` call is outside the `try`, so a string parsing
to a length-less literal such as `"5"` raises an uncaught `TypeError`
(modelled as `none`) instead of returning 0. -/
theorem claim_C8_counterexample :
    EventDetector.calculate_degree_from_adjacencies
      (.str (some .unsized)) = none ∧
    (none : Option ℕ) ≠ some 0 := by
  exact ⟨rfl, by decide⟩

/-- C8 (amended): the topology reconciliation degree computation never
raises: it returns 0 for unparseable strings, for strings parsing to a
length-less literal such as `"5"`, and for non-string non-list values (a
string parsing to a sized non-list literal yields that literal's length).
The event detector degree computation returns 0 for unparseable strings
and non-string non-list values, but a string parsing to a length-less
non-list literal such as `"5"` raises `TypeError` there instead of
returning 0. -/
theorem claim_C8_degree_degradation :
    TopologyReconciliation.calculate_degree_from_adjacencies (.str none) = 0 ∧
    TopologyReconciliation.calculate_degree_from_adjacencies
      (.str (some .unsized)) = 0 ∧
    (∀ n, TopologyReconciliation.calculate_degree_from_adjacencies
      (.str (some (.sized n))) = n) ∧
    (∀ xs, TopologyReconciliation.calculate_degree_from_adjacencies
      (.str (some (.pylist xs))) = xs.length) ∧
    (∀ xs, TopologyReconciliation.calculate_degree_from_adjacencies
      (.pylist xs) = xs.length) ∧
    TopologyReconciliation.calculate_degree_from_adjacencies .other = 0 ∧
    EventDetector.calculate_degree_from_adjacencies (.str none) = some 0 ∧
    EventDetector.calculate_degree_from_adjacencies .other = some 0 ∧
    (∀ xs, EventDetector.calculate_degree_from_adjacencies
      (.pylist xs) = some xs.length) ∧
    EventDetector.calculate_degree_from_adjacencies (.str (some .unsized)) = none := by
  exact ⟨rfl, rfl, fun n => rfl, fun xs => rfl, fun xs => rfl, rfl, rfl, rfl,
    fun xs => rfl, rfl⟩

/-! ## Frames, spatial matching and the event classifier
    (`src/dynamics/event_detector.py` lines 40-64, 151-201, 204-555)

The classifier is embedded at the default call configuration
`combined_df=None, persistence_window=1`, under which `use_persistence`
is false (line 244) and every persistence branch is dead code. -/

/-- One row of a per-frame node table (the columns the classifier reads).
The `adjacencies` field is modelled in well-formed list form; for such
fields the event detector's degree computation is the list length
(`EventDetector.calculate_degree_from_adjacencies (.pylist xs) = some
xs.length`, see `claim_C8_degree_degradation`).  `convergence_raw` /
`divergence_raw` carry the per-row dynamics signals (the `.get(col, 0)`
default never fires when the column exists); whether the columns exist at
all is recorded on the frame. -/
structure NodeRow where
  node : ℤ
  pos_x : ℚ
  pos_y : ℚ
  pos_z : ℚ
  adjacencies : List ℤ
  time_point : ℤ
  convergence_raw : ℚ
  divergence_raw : ℚ
deriving DecidableEq, Inhabited

/-- A per-timepoint node table; `hasDynamics` models `has_dynamics_data`
(presence of the `convergence_raw` and `divergence_raw` columns,
`event_detector.py` lines 40-42). -/
structure Frame where
  rows : List NodeRow
  hasDynamics : Bool
deriving DecidableEq, Inhabited

/-- `df['actual_degree']`: node degree recomputed from the adjacency list. -/
def actual_degree (r : NodeRow) : ℕ := r.adjacencies.length

/-- Row `i` of a frame (`df.iloc[i]`; the classifier only ever indexes in
range). -/
def rowAt (rows : List NodeRow) (i : ℕ) : NodeRow := rows.getD i default

/-- The `[pos_x, pos_y, pos_z]` position list of a row. -/
def rowPos (r : NodeRow) : ℚ × ℚ × ℚ := (r.pos_x, r.pos_y, r.pos_z)

/-- The squared scaled Euclidean distance between two rows: each
z-coordinate is multiplied by `z_scale` before the norm is taken (lines
176-186 and the inline computations at lines 354-361, 406-413, 458-465,
510-517).  The source compares `np.linalg.norm` with a threshold; the
embedding compares squares, which is equivalent
(`withinDist_iff_dist_le`). -/
def scaledSqDist (z_scale : ℚ) (a b : NodeRow) : ℚ :=
  (a.pos_x - b.pos_x)^2 + (a.pos_y - b.pos_y)^2 +
    (z_scale * a.pos_z - z_scale * b.pos_z)^2

theorem scaledSqDist_nonneg (z_scale : ℚ) (a b : NodeRow) :
    0 ≤ scaledSqDist z_scale a b := by
  unfold scaledSqDist
  positivity

/-- `distance <= threshold` on scaled positions, as the Boolean the list
operations branch on. -/
def withinDist (z_scale t : ℚ) (a b : NodeRow) : Bool :=
  decide (0 ≤ t ∧ scaledSqDist z_scale a b ≤ t ^ 2)

/-- The Boolean comparison on squares coincides with comparing the scaled
Euclidean distance (the square root of `scaledSqDist`) with the threshold,
as the source computes it. -/
theorem withinDist_iff_dist_le (z_scale t : ℚ) (a b : NodeRow) :
    withinDist z_scale t a b = true ↔
      Real.sqrt ((scaledSqDist z_scale a b : ℚ) : ℝ) ≤ (t : ℝ) := by
  unfold withinDist
  rw [decide_eq_true_eq]
  constructor
  · rintro ⟨ht, hd⟩
    have hd' : ((scaledSqDist z_scale a b : ℚ) : ℝ) ≤ ((t : ℝ)) ^ 2 := by
      exact_mod_cast hd
    have h := Real.sqrt_le_sqrt hd'
    rwa [Real.sqrt_sq (by exact_mod_cast ht)] at h
  · intro h
    have ht : (0 : ℝ) ≤ (t : ℝ) := le_trans (Real.sqrt_nonneg _) h
    have hd0 : (0 : ℝ) ≤ ((scaledSqDist z_scale a b : ℚ) : ℝ) := by
      exact_mod_cast scaledSqDist_nonneg z_scale a b
    have hsq : ((scaledSqDist z_scale a b : ℚ) : ℝ) ≤ ((t : ℝ)) ^ 2 := by
      calc ((scaledSqDist z_scale a b : ℚ) : ℝ)
          = Real.sqrt ((scaledSqDist z_scale a b : ℚ) : ℝ) ^ 2 := (Real.sq_sqrt hd0).symm
        _ ≤ ((t : ℝ)) ^ 2 := by
            apply pow_le_pow_left₀ (Real.sqrt_nonneg _) h
    exact ⟨by exact_mod_cast ht, by exact_mod_cast hsq⟩

/-- `match_nodes_spatially` (lines 151-201): for every t1 row index `i`,
the list of all t2 row indices within `distance_threshold` of it (scaled
Euclidean distance, inclusive comparison); indices with no match get no
entry (`if valid_matches:`); an empty frame on either side yields the
empty relation (lines 165-166). -/
def match_nodes_spatially (df_t1 df_t2 : Frame)
    (distance_threshold z_scale : ℚ) : List (ℕ × List ℕ) :=
  if df_t1.rows.isEmpty || df_t2.rows.isEmpty then []
  else
    (List.range df_t1.rows.length).filterMap fun i =>
      let valid_matches := (List.range df_t2.rows.length).filter fun j =>
        withinDist z_scale distance_threshold (rowAt df_t1.rows i) (rowAt df_t2.rows j)
      if valid_matches.isEmpty then none else some (i, valid_matches)

/-- `are_nodes_adjacent` (lines 45-64): either row lists the other's node
id among its adjacencies. -/
def are_nodes_adjacent (rows : List NodeRow) (idx1 idx2 : ℕ) : Bool :=
  decide ((rowAt rows idx2).node ∈ (rowAt rows idx1).adjacencies) ||
    decide ((rowAt rows idx1).node ∈ (rowAt rows idx2).adjacencies)

/-- An event record emitted by the matched-node (degree-transition) branch
of `classify_network_events` (lines 292-299); `gating_signal` is the
convergence / divergence value stored when dynamics data is used. -/
structure DegreeEvent where
  position_t1 : ℚ × ℚ × ℚ
  position_t2 : ℚ × ℚ × ℚ
  degree_t1 : ℕ
  degree_t2 : ℕ
  timepoint_1 : ℤ
  timepoint_2 : ℤ
  gating_signal : Option ℚ
deriving DecidableEq

/-- An event record emitted by the unmatched-pair branches (tip-tip fusion
and fission at lines 387-393 / 439-445, extrusion / retraction at lines
491-497 / 543-549).  `dist_sq` is the square of the `distance` field the
source stores (`np.linalg.norm` of the scaled difference). -/
structure PairEvent where
  posA : ℚ × ℚ × ℚ
  posB : ℚ × ℚ × ℚ
  dist_sq : ℚ
  timepoint_1 : ℤ
  timepoint_2 : ℤ
deriving DecidableEq

/-- The six event lists returned by `classify_network_events`. -/
structure Events where
  tip_edge_fusion : List DegreeEvent
  junction_breakage : List DegreeEvent
  tip_tip_fusion : List PairEvent
  tip_tip_fission : List PairEvent
  extrusion : List PairEvent
  retraction : List PairEvent
deriving DecidableEq

/-- Contribution of one `matches` entry to the `tip_edge_fusion` list
(lines 282-316): only one-to-one matches (`len(t2_indices_list) == 1`) are
examined; degree 1 → degree ≥ 3; when dynamics data is used, the t2 node
must have strictly positive `convergence_raw` (`continue` on `<= 0`). -/
def matchedEventTEF (df_t1 df_t2 : Frame) (use_dynamics : Bool) :
    ℕ × List ℕ → Option DegreeEvent
  | (t1_idx, [t2_idx]) =>
    let r1 := rowAt df_t1.rows t1_idx
    let r2 := rowAt df_t2.rows t2_idx
    if actual_degree r1 = 1 ∧ 3 ≤ actual_degree r2 then
      if use_dynamics ∧ r2.convergence_raw ≤ 0 then none
      else some { position_t1 := rowPos r1, position_t2 := rowPos r2,
                  degree_t1 := actual_degree r1, degree_t2 := actual_degree r2,
                  timepoint_1 := r1.time_point, timepoint_2 := r2.time_point,
                  gating_signal := if use_dynamics then some r2.convergence_raw else none }
    else none
  | _ => none

/-- Contribution of one `matches` entry to the `junction_breakage` list
(lines 318-333): only one-to-one matches; degree ≥ 3 → degree 1; when
dynamics data is used, the t1 node must have strictly positive
`divergence_raw`. -/
def matchedEventJB (df_t1 df_t2 : Frame) (use_dynamics : Bool) :
    ℕ × List ℕ → Option DegreeEvent
  | (t1_idx, [t2_idx]) =>
    let r1 := rowAt df_t1.rows t1_idx
    let r2 := rowAt df_t2.rows t2_idx
    if 3 ≤ actual_degree r1 ∧ actual_degree r2 = 1 then
      if use_dynamics ∧ r1.divergence_raw ≤ 0 then none
      else some { position_t1 := rowPos r1, position_t2 := rowPos r2,
                  degree_t1 := actual_degree r1, degree_t2 := actual_degree r2,
                  timepoint_1 := r1.time_point, timepoint_2 := r2.time_point,
                  gating_signal := if use_dynamics then some r1.divergence_raw else none }
    else none
  | _ => none

/-- The t2 indices referenced by some match entry (lines 277-279). -/
def matchedT2Indices (node_matches : List (ℕ × List ℕ)) : List ℕ :=
  node_matches.flatMap fun e => e.2

/-- `disappeared_t1 = set(range(len(df_t1))) - matched_t1_indices`
(line 338). -/
def disappearedIndices (df_t1 : Frame) (node_matches : List (ℕ × List ℕ)) : List ℕ :=
  (List.range df_t1.rows.length).filter fun i =>
    decide (i ∉ node_matches.map fun e => e.1)

/-- `appeared_t2 = set(range(len(df_t2))) - matched_t2_indices`
(line 339). -/
def appearedIndices (df_t2 : Frame) (node_matches : List (ℕ × List ℕ)) : List ℕ :=
  (List.range df_t2.rows.length).filter fun j =>
    decide (j ∉ matchedT2Indices node_matches)

/-- Degree-1 selection from an index pool (lines 342-343). -/
def tipsOf (rows : List NodeRow) (idxs : List ℕ) : List ℕ :=
  idxs.filter fun i => decide (actual_degree (rowAt rows i) = 1)

/-- Degree-3 selection from an index pool (lines 344-345; exactly 3, not
`>= 3`). -/
def junctionsOf (rows : List NodeRow) (idxs : List ℕ) : List ℕ :=
  idxs.filter fun i => decide (actual_degree (rowAt rows i) = 3)

/-- `for i, x in enumerate(lst): for y in lst[i+1:]` — the ordered pairs of
distinct positions of a list. -/
def orderedPairs {α : Type} : List α → List (α × α)
  | [] => []
  | x :: xs => (xs.map fun y => (x, y)) ++ orderedPairs xs

/-- Tip-tip fusion candidates (lines 347-397): pairs of disappeared tips
within `2 × distance_threshold`; when dynamics data is used, both tips
need strictly positive `divergence_raw` (`continue` when
`divergence_1 <= 0 or divergence_2 <= 0`); `timepoint_2` is the first
tip's `time_point + 1`. -/
def tipTipFusionEvents (df_t1 : Frame) (distance_threshold z_scale : ℚ)
    (use_dynamics : Bool) (disappeared_tips : List ℕ) : List PairEvent :=
  (orderedPairs disappeared_tips).filterMap fun p =>
    let r1 := rowAt df_t1.rows p.1
    let r2 := rowAt df_t1.rows p.2
    if withinDist z_scale (distance_threshold * 2) r1 r2 then
      if use_dynamics ∧ (r1.divergence_raw ≤ 0 ∨ r2.divergence_raw ≤ 0) then none
      else some { posA := rowPos r1, posB := rowPos r2,
                  dist_sq := scaledSqDist z_scale r1 r2,
                  timepoint_1 := r1.time_point,
                  timepoint_2 := r1.time_point + 1 }
    else none

/-- Tip-tip fission candidates (lines 399-449): pairs of appeared tips
within `2 × distance_threshold`; when dynamics data is used, at least one
tip needs strictly positive `convergence_raw` (`continue` when
`convergence_1 <= 0 and convergence_2 <= 0`); `timepoint_1` is the first
tip's `time_point - 1`. -/
def tipTipFissionEvents (df_t2 : Frame) (distance_threshold z_scale : ℚ)
    (use_dynamics : Bool) (appeared_tips : List ℕ) : List PairEvent :=
  (orderedPairs appeared_tips).filterMap fun p =>
    let r1 := rowAt df_t2.rows p.1
    let r2 := rowAt df_t2.rows p.2
    if withinDist z_scale (distance_threshold * 2) r1 r2 then
      if use_dynamics ∧ (r1.convergence_raw ≤ 0 ∧ r2.convergence_raw ≤ 0) then none
      else some { posA := rowPos r1, posB := rowPos r2,
                  dist_sq := scaledSqDist z_scale r1 r2,
                  timepoint_1 := r1.time_point - 1,
                  timepoint_2 := r1.time_point }
    else none

/-- Extrusion candidates (lines 451-501): an appeared tip and an appeared
junction within `distance_threshold` that are graph-adjacent in t2; when
dynamics data is used, at least one of the two needs strictly negative
`convergence_raw` (`continue` when
`convergence_tip >= 0 and convergence_junction >= 0`); `timepoint_1` is
the tip's `time_point - 1`. -/
def extrusionEvents (df_t2 : Frame) (distance_threshold z_scale : ℚ)
    (use_dynamics : Bool) (appeared_tips appeared_junctions : List ℕ) : List PairEvent :=
  (appeared_tips.flatMap fun tip_idx =>
      appeared_junctions.map fun junction_idx => (tip_idx, junction_idx)).filterMap
    fun p =>
      let rt := rowAt df_t2.rows p.1
      let rj := rowAt df_t2.rows p.2
      if withinDist z_scale distance_threshold rt rj then
        if are_nodes_adjacent df_t2.rows p.1 p.2 then
          if use_dynamics ∧ (0 ≤ rt.convergence_raw ∧ 0 ≤ rj.convergence_raw) then none
          else some { posA := rowPos rt, posB := rowPos rj,
                      dist_sq := scaledSqDist z_scale rt rj,
                      timepoint_1 := rt.time_point - 1,
                      timepoint_2 := rt.time_point }
        else none
      else none

/-- Retraction candidates (lines 503-553): a disappeared tip and a
disappeared junction within `distance_threshold` that were graph-adjacent
in t1; when dynamics data is used, at least one of the two needs strictly
positive `divergence_raw` (`continue` when
`divergence_tip <= 0 and divergence_junction <= 0`); `timepoint_2` is the
tip's `time_point + 1`. -/
def retractionEvents (df_t1 : Frame) (distance_threshold z_scale : ℚ)
    (use_dynamics : Bool) (disappeared_tips disappeared_junctions : List ℕ) : List PairEvent :=
  (disappeared_tips.flatMap fun tip_idx =>
      disappeared_junctions.map fun junction_idx => (tip_idx, junction_idx)).filterMap
    fun p =>
      let rt := rowAt df_t1.rows p.1
      let rj := rowAt df_t1.rows p.2
      if withinDist z_scale distance_threshold rt rj then
        if are_nodes_adjacent df_t1.rows p.1 p.2 then
          if use_dynamics ∧ (rt.divergence_raw ≤ 0 ∧ rj.divergence_raw ≤ 0) then none
          else some { posA := rowPos rt, posB := rowPos rj,
                      dist_sq := scaledSqDist z_scale rt rj,
                      timepoint_1 := rt.time_point,
                      timepoint_2 := rt.time_point + 1 }
        else none
      else none

/-- `classify_network_events` (lines 204-555) at the default
`combined_df=None, persistence_window=1` (no persistence checking). -/
def classify_network_events (df_t1 df_t2 : Frame)
    (distance_threshold z_scale : ℚ) : Events :=
  let use_dynamics := df_t1.hasDynamics && df_t2.hasDynamics
  let node_matches := match_nodes_spatially df_t1 df_t2 distance_threshold z_scale
  let disappeared_t1 := disappearedIndices df_t1 node_matches
  let appeared_t2 := appearedIndices df_t2 node_matches
  let disappeared_tips := tipsOf df_t1.rows disappeared_t1
  let appeared_tips := tipsOf df_t2.rows appeared_t2
  let disappeared_junctions := junctionsOf df_t1.rows disappeared_t1
  let appeared_junctions := junctionsOf df_t2.rows appeared_t2
  { tip_edge_fusion := node_matches.filterMap (matchedEventTEF df_t1 df_t2 use_dynamics)
    junction_breakage := node_matches.filterMap (matchedEventJB df_t1 df_t2 use_dynamics)
    tip_tip_fusion :=
      tipTipFusionEvents df_t1 distance_threshold z_scale use_dynamics disappeared_tips
    tip_tip_fission :=
      tipTipFissionEvents df_t2 distance_threshold z_scale use_dynamics appeared_tips
    extrusion :=
      extrusionEvents df_t2 distance_threshold z_scale use_dynamics
        appeared_tips appeared_junctions
    retraction :=
      retractionEvents df_t1 distance_threshold z_scale use_dynamics
        disappeared_tips disappeared_junctions }

/-! ## Structural lemmas about the classifier -/

theorem orderedPairs_mem {α : Type} {l : List α} {p : α × α}
    (h : p ∈ orderedPairs l) : p.1 ∈ l ∧ p.2 ∈ l := by
  induction l with
  | nil => simp [orderedPairs] at h
  | cons x xs ih =>
    unfold orderedPairs at h
    rw [List.mem_append] at h
    rcases h with h | h
    · obtain ⟨y, hy, hp⟩ := List.mem_map.mp h
      rw [← hp]
      exact ⟨List.mem_cons_self x xs, List.mem_cons_of_mem x hy⟩
    · obtain ⟨h1, h2⟩ := ih h
      exact ⟨List.mem_cons_of_mem x h1, List.mem_cons_of_mem x h2⟩

theorem rowAt_mem {rows : List NodeRow} {i : ℕ} (h : i < rows.length) :
    rowAt rows i ∈ rows := by
  unfold rowAt
  rw [List.getD_eq_getElem rows default h]
  exact List.getElem_mem h

theorem mem_tipsOf {rows : List NodeRow} {idxs : List ℕ} {i : ℕ}
    (h : i ∈ tipsOf rows idxs) : i ∈ idxs :=
  (List.mem_filter.mp h).1

theorem mem_disappearedIndices_lt {df : Frame} {m : List (ℕ × List ℕ)} {i : ℕ}
    (h : i ∈ disappearedIndices df m) : i < df.rows.length :=
  List.mem_range.mp (List.mem_filter.mp h).1

theorem mem_appearedIndices_lt {df : Frame} {m : List (ℕ × List ℕ)} {j : ℕ}
    (h : j ∈ appearedIndices df m) : j < df.rows.length :=
  List.mem_range.mp (List.mem_filter.mp h).1

/-- Every tip-tip fusion event is built from a first participating t1 row:
`timepoint_1` is that row's `time_point` and `timepoint_2` is it plus 1. -/
theorem tipTipFusionEvents_mem {df : Frame} {thr z : ℚ} {dyn : Bool}
    {tips : List ℕ} {e : PairEvent} (he : e ∈ tipTipFusionEvents df thr z dyn tips) :
    ∃ i ∈ tips, e.timepoint_1 = (rowAt df.rows i).time_point ∧
      e.timepoint_2 = (rowAt df.rows i).time_point + 1 := by
  unfold tipTipFusionEvents at he
  obtain ⟨p, hp, hsome⟩ := List.mem_filterMap.mp he
  refine ⟨p.1, (orderedPairs_mem hp).1, ?_⟩
  simp only [] at hsome
  split_ifs at hsome
  rw [Option.some.injEq] at hsome
  rw [← hsome]
  exact ⟨rfl, rfl⟩

theorem tipTipFissionEvents_mem {df : Frame} {thr z : ℚ} {dyn : Bool}
    {tips : List ℕ} {e : PairEvent} (he : e ∈ tipTipFissionEvents df thr z dyn tips) :
    ∃ i ∈ tips, e.timepoint_2 = (rowAt df.rows i).time_point ∧
      e.timepoint_1 = (rowAt df.rows i).time_point - 1 := by
  unfold tipTipFissionEvents at he
  obtain ⟨p, hp, hsome⟩ := List.mem_filterMap.mp he
  refine ⟨p.1, (orderedPairs_mem hp).1, ?_⟩
  simp only [] at hsome
  split_ifs at hsome
  rw [Option.some.injEq] at hsome
  rw [← hsome]
  exact ⟨rfl, rfl⟩

theorem extrusionEvents_mem {df : Frame} {thr z : ℚ} {dyn : Bool}
    {tips junctions : List ℕ} {e : PairEvent}
    (he : e ∈ extrusionEvents df thr z dyn tips junctions) :
    ∃ i ∈ tips, e.timepoint_2 = (rowAt df.rows i).time_point ∧
      e.timepoint_1 = (rowAt df.rows i).time_point - 1 := by
  unfold extrusionEvents at he
  obtain ⟨p, hp, hsome⟩ := List.mem_filterMap.mp he
  obtain ⟨ti, hti, hmap⟩ := List.mem_flatMap.mp hp
  obtain ⟨ji, _, hpair⟩ := List.mem_map.mp hmap
  refine ⟨p.1, ?_, ?_⟩
  · rw [← hpair]
    exact hti
  · simp only [] at hsome
    split_ifs at hsome
    rw [Option.some.injEq] at hsome
    rw [← hsome]
    exact ⟨rfl, rfl⟩

theorem retractionEvents_mem {df : Frame} {thr z : ℚ} {dyn : Bool}
    {tips junctions : List ℕ} {e : PairEvent}
    (he : e ∈ retractionEvents df thr z dyn tips junctions) :
    ∃ i ∈ tips, e.timepoint_1 = (rowAt df.rows i).time_point ∧
      e.timepoint_2 = (rowAt df.rows i).time_point + 1 := by
  unfold retractionEvents at he
  obtain ⟨p, hp, hsome⟩ := List.mem_filterMap.mp he
  obtain ⟨ti, hti, hmap⟩ := List.mem_flatMap.mp hp
  obtain ⟨ji, _, hpair⟩ := List.mem_map.mp hmap
  refine ⟨p.1, ?_, ?_⟩
  · rw [← hpair]
    exact hti
  · simp only [] at hsome
    split_ifs at hsome
    rw [Option.some.injEq] at hsome
    rw [← hsome]
    exact ⟨rfl, rfl⟩

/-! ## Concrete frames used as witnesses and counterexamples -/

/-- Convenience constructor for a node row. -/
def mkRow (n : ℤ) (x y z : ℚ) (adj : List ℤ) (tp : ℤ) (cv dv : ℚ) : NodeRow :=
  { node := n, pos_x := x, pos_y := y, pos_z := z, adjacencies := adj,
    time_point := tp, convergence_raw := cv, divergence_raw := dv }

/-- A degree-1 node at the origin at time 0 (no dynamics signal). -/
def exTipA : NodeRow := mkRow 1 0 0 0 [2] 0 0 0

/-- A second degree-1 node at the origin at time 0. -/
def exTipB : NodeRow := mkRow 2 0 0 0 [1] 0 0 0

/-- A degree-1 node at the origin at time 0 used as a lone t1 node. -/
def exTipC : NodeRow := mkRow 3 0 0 0 [4] 0 0 0

/-- A frame with two coincident tips and no dynamics columns. -/
def exFrameTwoTips : Frame := ⟨[exTipA, exTipB], false⟩

theorem match_exTipC_twoTips :
    match_nodes_spatially ⟨[exTipC], false⟩ exFrameTwoTips 1 1 = [(0, [0, 1])] := by
  norm_num [match_nodes_spatially, exFrameTwoTips, exTipA, exTipB, exTipC, mkRow,
    withinDist, scaledSqDist, rowAt, List.range_succ, List.filter, List.filterMap]

/-- C5: every pair related by `match_nodes_spatially` is within the
threshold in scaled Euclidean distance (inclusive), no pair beyond the
threshold is included, the relation is empty whenever either frame is
empty, and the relation can be one-to-many (a concrete t1 node matching
two t2 nodes). -/
theorem claim_C5_matching_threshold :
    (∀ (df_t1 df_t2 : Frame) (thr z : ℚ) (i : ℕ) (js : List ℕ) (j : ℕ),
      (i, js) ∈ match_nodes_spatially df_t1 df_t2 thr z → j ∈ js →
      Real.sqrt ((scaledSqDist z (rowAt df_t1.rows i) (rowAt df_t2.rows j) : ℚ) : ℝ) ≤
        (thr : ℝ)) ∧
    (∀ (df_t1 df_t2 : Frame) (thr z : ℚ),
      df_t1.rows = [] ∨ df_t2.rows = [] →
      match_nodes_spatially df_t1 df_t2 thr z = []) ∧
    match_nodes_spatially ⟨[exTipC], false⟩ exFrameTwoTips 1 1 = [(0, [0, 1])] := by
  refine ⟨?_, ?_, match_exTipC_twoTips⟩
  · intro df_t1 df_t2 thr z i js j hm hj
    unfold match_nodes_spatially at hm
    split_ifs at hm with hemp
    · simp at hm
    · obtain ⟨i', hi', heq⟩ := List.mem_filterMap.mp hm
      simp only [] at heq
      split_ifs at heq
      rw [Option.some.injEq, Prod.mk.injEq] at heq
      obtain ⟨hii, hjs⟩ := heq
      subst hii
      subst hjs
      have hw := (List.mem_filter.mp hj).2
      exact (withinDist_iff_dist_le z thr _ _).mp hw
  · intro df_t1 df_t2 thr z h
    unfold match_nodes_spatially
    rcases h with h | h <;> simp [h]

/-- Witness for C5: the concrete one-to-many relation contains the pair
(t1 node 0, t2 node 0), and the matching-threshold bound holds there. -/
theorem claim_C5_matching_threshold_witness :
    (0, [0, 1]) ∈ match_nodes_spatially ⟨[exTipC], false⟩ exFrameTwoTips 1 1 ∧
    Real.sqrt ((scaledSqDist 1 (rowAt (Frame.mk [exTipC] false).rows 0)
      (rowAt exFrameTwoTips.rows 0) : ℚ) : ℝ) ≤ ((1 : ℚ) : ℝ) := by
  have hm : (0, [0, 1]) ∈ match_nodes_spatially ⟨[exTipC], false⟩ exFrameTwoTips 1 1 := by
    rw [match_exTipC_twoTips]
    simp
  exact ⟨hm,
    claim_C5_matching_threshold.1 ⟨[exTipC], false⟩ exFrameTwoTips 1 1 0 [0, 1] 0 hm
      (by simp)⟩

/-- C7: the claim states that whenever at least one frame is empty, the
match relation is empty and all six event lists are empty.  The match
relation is indeed empty, but the event lists are not all empty: with t1
empty and t2 holding two coincident appeared tips, the tip-tip fission
pairing still emits an event from the non-empty frame alone. -/
theorem claim_C7_counterexample :
    match_nodes_spatially ⟨[], false⟩ exFrameTwoTips 1 1 = [] ∧
    (classify_network_events ⟨[], false⟩ exFrameTwoTips 1 1).tip_tip_fission ≠ [] := by
  constructor
  · rfl
  · norm_num [classify_network_events, match_nodes_spatially, appearedIndices,
      disappearedIndices, matchedT2Indices, tipsOf, junctionsOf, orderedPairs,
      tipTipFissionEvents, withinDist, scaledSqDist, rowAt, actual_degree,
      exFrameTwoTips, exTipA, exTipB, mkRow, List.range_succ, List.filter,
      List.filterMap]

/-- C7 (amended): an empty frame yields an empty match relation, and the
event categories that draw on the empty side are empty — with t1 empty:
tip_edge_fusion, junction_breakage, tip_tip_fusion and retraction; with t2
empty: tip_edge_fusion, junction_breakage, tip_tip_fission and extrusion;
with both empty, all six lists are empty.  (The pair-based categories of
the non-empty side can still be non-empty, see the counterexample.) -/
theorem claim_C7_empty_frame (df_t1 df_t2 : Frame) (thr z : ℚ) :
    (df_t1.rows = [] →
      match_nodes_spatially df_t1 df_t2 thr z = [] ∧
      (classify_network_events df_t1 df_t2 thr z).tip_edge_fusion = [] ∧
      (classify_network_events df_t1 df_t2 thr z).junction_breakage = [] ∧
      (classify_network_events df_t1 df_t2 thr z).tip_tip_fusion = [] ∧
      (classify_network_events df_t1 df_t2 thr z).retraction = []) ∧
    (df_t2.rows = [] →
      match_nodes_spatially df_t1 df_t2 thr z = [] ∧
      (classify_network_events df_t1 df_t2 thr z).tip_edge_fusion = [] ∧
      (classify_network_events df_t1 df_t2 thr z).junction_breakage = [] ∧
      (classify_network_events df_t1 df_t2 thr z).tip_tip_fission = [] ∧
      (classify_network_events df_t1 df_t2 thr z).extrusion = []) ∧
    (df_t1.rows = [] → df_t2.rows = [] →
      classify_network_events df_t1 df_t2 thr z = ⟨[], [], [], [], [], []⟩) := by
  obtain ⟨rows1, dyn1⟩ := df_t1
  obtain ⟨rows2, dyn2⟩ := df_t2
  refine ⟨?_, ?_, ?_⟩
  · intro h1
    simp only at h1
    subst h1
    refine ⟨?_, ?_, ?_, ?_, ?_⟩ <;>
      simp [classify_network_events, match_nodes_spatially, disappearedIndices,
        appearedIndices, matchedT2Indices, tipsOf, junctionsOf, orderedPairs,
        tipTipFusionEvents, retractionEvents]
  · intro h2
    simp only at h2
    subst h2
    refine ⟨?_, ?_, ?_, ?_, ?_⟩ <;>
      simp [classify_network_events, match_nodes_spatially, disappearedIndices,
        appearedIndices, matchedT2Indices, tipsOf, junctionsOf, orderedPairs,
        tipTipFissionEvents, extrusionEvents]
  · intro h1 h2
    simp only at h1 h2
    subst h1
    subst h2
    simp [classify_network_events, match_nodes_spatially, disappearedIndices,
      appearedIndices, matchedT2Indices, tipsOf, junctionsOf, orderedPairs,
      tipTipFusionEvents, tipTipFissionEvents, extrusionEvents, retractionEvents]

/-- Witness for C7 (amended) at t1 empty against the two-tip t2 frame. -/
theorem claim_C7_empty_frame_witness :
    match_nodes_spatially ⟨[], false⟩ exFrameTwoTips 1 1 = [] ∧
    (classify_network_events ⟨[], false⟩ exFrameTwoTips 1 1).tip_tip_fusion = [] ∧
    (classify_network_events ⟨[], false⟩ exFrameTwoTips 1 1).retraction = [] := by
  obtain ⟨h1, _, _, h4, h5⟩ :=
    (claim_C7_empty_frame ⟨[], false⟩ exFrameTwoTips 1 1).1 rfl
  exact ⟨h1, h4, h5⟩

/-- C9: a `matches` entry whose t2 index list has two or more elements
contributes no tip-edge-fusion or junction-breakage candidate (only
one-to-one entries are examined), while all its t2 indices still count as
matched and are therefore excluded from the appeared pool that feeds the
tip-tip fission and extrusion pairings (which classify builds from exactly
these definitions). -/
theorem claim_C9_one_to_many_entries (df_t1 df_t2 : Frame) (thr z : ℚ)
    (use_dynamics : Bool) (i : ℕ) (js : List ℕ) :
    (2 ≤ js.length →
      matchedEventTEF df_t1 df_t2 use_dynamics (i, js) = none ∧
      matchedEventJB df_t1 df_t2 use_dynamics (i, js) = none) ∧
    ((i, js) ∈ match_nodes_spatially df_t1 df_t2 thr z →
      ∀ j ∈ js, j ∉ appearedIndices df_t2 (match_nodes_spatially df_t1 df_t2 thr z)) ∧
    (classify_network_events df_t1 df_t2 thr z).tip_edge_fusion =
      (match_nodes_spatially df_t1 df_t2 thr z).filterMap
        (matchedEventTEF df_t1 df_t2 (df_t1.hasDynamics && df_t2.hasDynamics)) ∧
    (classify_network_events df_t1 df_t2 thr z).tip_tip_fission =
      tipTipFissionEvents df_t2 thr z (df_t1.hasDynamics && df_t2.hasDynamics)
        (tipsOf df_t2.rows
          (appearedIndices df_t2 (match_nodes_spatially df_t1 df_t2 thr z))) := by
  refine ⟨?_, ?_, rfl, rfl⟩
  · intro h2
    rcases js with _ | ⟨a, _ | ⟨b, rest⟩⟩
    · exact absurd h2 (by simp)
    · exact absurd h2 (by simp)
    · exact ⟨rfl, rfl⟩
  · intro hm j hj hjapp
    have h2 := (List.mem_filter.mp hjapp).2
    rw [decide_eq_true_eq] at h2
    exact h2 (List.mem_flatMap.mpr ⟨(i, js), hm, hj⟩)

/-- Witness for C9: the concrete one-to-many entry `(0, [0, 1])` emits no
matched-branch candidate, and its t2 indices are excluded from the
appeared pool. -/
theorem claim_C9_one_to_many_entries_witness :
    matchedEventTEF ⟨[exTipC], false⟩ exFrameTwoTips false (0, [0, 1]) = none ∧
    matchedEventJB ⟨[exTipC], false⟩ exFrameTwoTips false (0, [0, 1]) = none ∧
    (0 : ℕ) ∉ appearedIndices exFrameTwoTips
      (match_nodes_spatially ⟨[exTipC], false⟩ exFrameTwoTips 1 1) := by
  have h := claim_C9_one_to_many_entries ⟨[exTipC], false⟩ exFrameTwoTips 1 1 false 0 [0, 1]
  have hm : (0, [0, 1]) ∈ match_nodes_spatially ⟨[exTipC], false⟩ exFrameTwoTips 1 1 := by
    rw [match_exTipC_twoTips]
    simp
  obtain ⟨hA, hB⟩ := h.1 (by norm_num)
  exact ⟨hA, hB, h.2.1 hm 0 (by simp)⟩

/-- C10: every unmatched-pair event derives its recorded timepoint pair
arithmetically from a single participant's `time_point`: tip-tip fusion
and retraction set `timepoint_2 = timepoint_1 + 1` (both taken from a t1
row), tip-tip fission and extrusion set `timepoint_1 = timepoint_2 - 1`
(both taken from a t2 row); hence for a transition whose uniform frame
timepoints `(a, b)` are not successive integers, the recorded pair differs
from the actual `(a, b)`. -/
theorem claim_C10_timepoint_arithmetic (df_t1 df_t2 : Frame) (thr z : ℚ) :
    (∀ e ∈ (classify_network_events df_t1 df_t2 thr z).tip_tip_fusion,
      e.timepoint_2 = e.timepoint_1 + 1 ∧
      ∃ r ∈ df_t1.rows, e.timepoint_1 = r.time_point) ∧
    (∀ e ∈ (classify_network_events df_t1 df_t2 thr z).retraction,
      e.timepoint_2 = e.timepoint_1 + 1 ∧
      ∃ r ∈ df_t1.rows, e.timepoint_1 = r.time_point) ∧
    (∀ e ∈ (classify_network_events df_t1 df_t2 thr z).tip_tip_fission,
      e.timepoint_1 = e.timepoint_2 - 1 ∧
      ∃ r ∈ df_t2.rows, e.timepoint_2 = r.time_point) ∧
    (∀ e ∈ (classify_network_events df_t1 df_t2 thr z).extrusion,
      e.timepoint_1 = e.timepoint_2 - 1 ∧
      ∃ r ∈ df_t2.rows, e.timepoint_2 = r.time_point) ∧
    (∀ a b : ℤ,
      (∀ r ∈ df_t1.rows, r.time_point = a) →
      (∀ r ∈ df_t2.rows, r.time_point = b) →
      b ≠ a + 1 →
      (∀ e ∈ (classify_network_events df_t1 df_t2 thr z).tip_tip_fusion,
        (e.timepoint_1, e.timepoint_2) ≠ (a, b)) ∧
      (∀ e ∈ (classify_network_events df_t1 df_t2 thr z).tip_tip_fission,
        (e.timepoint_1, e.timepoint_2) ≠ (a, b))) := by
  have hfu : ∀ e ∈ (classify_network_events df_t1 df_t2 thr z).tip_tip_fusion,
      e.timepoint_2 = e.timepoint_1 + 1 ∧
      ∃ r ∈ df_t1.rows, e.timepoint_1 = r.time_point := by
    intro e he
    obtain ⟨i, hi, h1, h2⟩ := tipTipFusionEvents_mem he
    refine ⟨by rw [h2, h1], rowAt df_t1.rows i,
      rowAt_mem (mem_disappearedIndices_lt (mem_tipsOf hi)), h1⟩
  have hfi : ∀ e ∈ (classify_network_events df_t1 df_t2 thr z).tip_tip_fission,
      e.timepoint_1 = e.timepoint_2 - 1 ∧
      ∃ r ∈ df_t2.rows, e.timepoint_2 = r.time_point := by
    intro e he
    obtain ⟨i, hi, h2, h1⟩ := tipTipFissionEvents_mem he
    refine ⟨by rw [h1, h2], rowAt df_t2.rows i,
      rowAt_mem (mem_appearedIndices_lt (mem_tipsOf hi)), h2⟩
  refine ⟨hfu, ?_, hfi, ?_, ?_⟩
  · intro e he
    obtain ⟨i, hi, h1, h2⟩ := retractionEvents_mem he
    refine ⟨by rw [h2, h1], rowAt df_t1.rows i,
      rowAt_mem (mem_disappearedIndices_lt (mem_tipsOf hi)), h1⟩
  · intro e he
    obtain ⟨i, hi, h2, h1⟩ := extrusionEvents_mem he
    refine ⟨by rw [h1, h2], rowAt df_t2.rows i,
      rowAt_mem (mem_appearedIndices_lt (mem_tipsOf hi)), h2⟩
  · intro a b _ _ hne
    constructor
    · intro e he heq
      obtain ⟨hstep, _⟩ := hfu e he
      rw [Prod.mk.injEq] at heq
      obtain ⟨h1, h2⟩ := heq
      rw [h1, h2] at hstep
      exact hne hstep
    · intro e he heq
      obtain ⟨hstep, _⟩ := hfi e he
      rw [Prod.mk.injEq] at heq
      obtain ⟨h1, h2⟩ := heq
      rw [h1, h2] at hstep
      apply hne
      omega

/-- The fusion event emitted for the two coincident disappearing tips. -/
def exFusionEvent : PairEvent :=
  { posA := (0, 0, 0), posB := (0, 0, 0), dist_sq := 0,
    timepoint_1 := 0, timepoint_2 := 1 }

theorem fusion_twoTips_eval :
    (classify_network_events exFrameTwoTips ⟨[], false⟩ 1 1).tip_tip_fusion =
      [exFusionEvent] := by
  norm_num [classify_network_events, match_nodes_spatially, appearedIndices,
    disappearedIndices, matchedT2Indices, tipsOf, junctionsOf, orderedPairs,
    tipTipFusionEvents, withinDist, scaledSqDist, rowAt, rowPos, actual_degree,
    exFrameTwoTips, exTipA, exTipB, mkRow, exFusionEvent, List.range_succ,
    List.filter, List.filterMap]

/-- Witness for C10: the concrete fusion event of a 0 → 5 transition
records timepoints (0, 1), not the actual (0, 5). -/
theorem claim_C10_timepoint_arithmetic_witness :
    exFusionEvent ∈ (classify_network_events exFrameTwoTips ⟨[], false⟩ 1 1).tip_tip_fusion ∧
    exFusionEvent.timepoint_2 = exFusionEvent.timepoint_1 + 1 ∧
    (exFusionEvent.timepoint_1, exFusionEvent.timepoint_2) ≠ ((0 : ℤ), (5 : ℤ)) := by
  have hmem : exFusionEvent ∈
      (classify_network_events exFrameTwoTips ⟨[], false⟩ 1 1).tip_tip_fusion := by
    rw [fusion_twoTips_eval]
    simp
  have h := claim_C10_timepoint_arithmetic exFrameTwoTips ⟨[], false⟩ 1 1
  refine ⟨hmem, (h.1 exFusionEvent hmem).1, ?_⟩
  refine (h.2.2.2.2 0 5 ?_ ?_ (by decide)).1 exFusionEvent hmem
  · intro r hr
    simp [exFrameTwoTips] at hr
    rcases hr with rfl | rfl <;> rfl
  · intro r hr
    simp at hr

/-- Nodes carrying a convergent-motion signal (positive convergence,
negative divergence). -/
def exConvTipA : NodeRow := mkRow 1 0 0 0 [2] 0 5 (-1)

def exConvTipB : NodeRow := mkRow 2 0 0 0 [1] 0 5 (-1)

/-- Nodes carrying a divergent-motion signal (negative convergence,
positive divergence). -/
def exDivTipA : NodeRow := mkRow 1 0 0 0 [2] 0 (-1) 5

def exDivTipB : NodeRow := mkRow 2 0 0 0 [1] 0 (-1) 5

/-- C4: the claim (and the function's own docstring, lines 210-215) says
tip-tip fusion — a convergent-motion, fusion-type category — requires the
convergence-indicating signal, and tip-tip fission — a divergent-motion
category — the opposite.  The code does the reverse: a disappearing tip
pair with a clearly convergent signal (convergence_raw = 5,
divergence_raw = -1) is discarded for tip_tip_fusion, while a pair with a
divergent signal (divergence_raw = 5) is emitted; dually, an appearing tip
pair is emitted for tip_tip_fission exactly when it carries positive
convergence. -/
theorem claim_C4_gating_sign_scheme :
    (classify_network_events ⟨[exConvTipA, exConvTipB], true⟩
      ⟨[], true⟩ 1 1).tip_tip_fusion = [] ∧
    (classify_network_events ⟨[exDivTipA, exDivTipB], true⟩
      ⟨[], true⟩ 1 1).tip_tip_fusion ≠ [] ∧
    (classify_network_events ⟨[], true⟩
      ⟨[exConvTipA, exConvTipB], true⟩ 1 1).tip_tip_fission ≠ [] ∧
    (classify_network_events ⟨[], true⟩
      ⟨[exDivTipA, exDivTipB], true⟩ 1 1).tip_tip_fission = [] := by
  refine ⟨?_, ?_, ?_, ?_⟩ <;>
    norm_num [classify_network_events, match_nodes_spatially, appearedIndices,
      disappearedIndices, matchedT2Indices, tipsOf, junctionsOf, orderedPairs,
      tipTipFusionEvents, tipTipFissionEvents, withinDist, scaledSqDist, rowAt,
      rowPos, actual_degree, exConvTipA, exConvTipB, exDivTipA, exDivTipB, mkRow,
      List.range_succ, List.filter, List.filterMap]
